import Mathlib

/-!
Verification of the Dukascopy download utility (`ducascopy_download.py`).

The four pipeline stages — fetch (`read_day`), decompress, binary parse
(`bi5_to_df`), normalize (`normalize_df`) — and the two aggregation loops
(`download_period`, `download_data`) are shallowly embedded below.  Effectful
library calls are turned into explicit parameters:

* the HTTP GET of `requests.get` becomes an oracle `http` mapping a day
  ordinal (for `download_data`, a symbol and a day ordinal) to the
  `HttpResponse` the network returns for that day's URL;
* the LZMA decompressor becomes a function `decomp : List Nat → Option
  (List Nat)` on byte buffers, `none` standing for an `LZMAError`;
* the `struct` module's format string becomes a descriptor `Fmt` carrying
  the chunk size (`struct.calcsize`) and the per-chunk decoder
  (`struct.unpack` for a 6-field record);
* Python `datetime` values are represented by proleptic-Gregorian day
  ordinals (`rataDie`) and epoch second counts; `pandas` tables become
  ordered `List`s of rows;
* a Python exception that escapes a function is an `Except.error`.
-/

/-- Python exceptions that the embedded code can raise:
`ValueError` (from `datetime.strptime`) and `UnboundLocalError`
(from `return decompresseddata` when the local was never assigned). -/
inductive PyErr where
  | valueError
  | unboundLocalError
deriving DecidableEq, Repr

/-- The parts of a `requests` response the source consults:
`res.status_code` and `res.content` (a byte string, one `Nat` per byte). -/
structure HttpResponse where
  status_code : Nat
  content : List Nat
deriving DecidableEq, Repr

/-- A calendar date, as produced by `datetime.strptime(s, '%Y-%m-%d')`. -/
structure Date where
  year : Nat
  month : Nat
  day : Nat
deriving DecidableEq, Repr

/-- One decoded tick/candle record: the 6-tuple `struct.unpack` yields for a
chunk, in the column order `['time', 'open', 'high', 'low', 'close',
'volume']` used by `bi5_to_df`.  `time_offset` is seconds since the owning
day's midnight; the four prices are fixed-point integers scaled by 1000;
the volume field is carried through unchanged (it may decode as a float,
hence `ℚ`). -/
structure Record where
  time_offset : Int
  open_ : Int
  high : Int
  low : Int
  close : Int
  volume : ℚ
deriving DecidableEq, Repr

/-- One row after `normalize_df`: absolute time in epoch seconds, real-valued
prices, untouched volume. -/
structure Row where
  time : Int
  open_ : ℚ
  high : ℚ
  low : ℚ
  close : ℚ
  volume : ℚ
deriving DecidableEq, Repr

/-- The `struct` format descriptor `fmt`: `size` is `struct.calcsize(fmt)`
and `unpack` is `struct.unpack(fmt, ·)` applied to a chunk of exactly
`size` bytes, decoding the 6 fields of a `Record`. -/
structure Fmt where
  size : Nat
  unpack : List Nat → Record

/-- Result of a call to `read_day`:
`notFound` is the `return -1` taken on HTTP 404; `payload` is the
decompressed byte buffer returned on the success path; `pyError` is an
exception escaping the call. -/
inductive ReadDayResult where
  | notFound
  | payload (decompresseddata : List Nat)
  | pyError (e : PyErr)
deriving DecidableEq, Repr

/-- The character for one decimal digit (both arguments of `decDigitsAux`
below are < 10, so the final catch-all is only ever reached by 9). -/
def digitCh : Nat → Char
  | 0 => '0'
  | 1 => '1'
  | 2 => '2'
  | 3 => '3'
  | 4 => '4'
  | 5 => '5'
  | 6 => '6'
  | 7 => '7'
  | 8 => '8'
  | _ => '9'

/-- Fuel-bounded digit expansion; `fuel ≥ number of digits` suffices, and the
wrapper below always supplies enough. -/
def decDigitsAux : Nat → Nat → List Char
  | 0, _ => []
  | fuel + 1, n =>
    if n < 10 then [digitCh n]
    else decDigitsAux fuel (n / 10) ++ [digitCh (n % 10)]

/-- Decimal digit characters of `n`, most significant first (the digits of
Python's `'%d' % n` for a natural number). -/
def decDigits (n : Nat) : List Char := decDigitsAux (n + 1) n

/-- Python's zero-padding format `'{n:0wd}'`: the decimal digits of `n`
left-padded with `'0'` to width `w`. -/
def padZero (w n : Nat) : List Char :=
  List.replicate (w - (decDigits n).length) '0' ++ decDigits n

/-- The resource path built by `read_day` (line 32 of the source):
`f'{url_prefix}/{symbol}/{day.year:04d}/{day.month-1:02d}/{day.day:02d}/{file_name}'`
with `url_prefix = 'https://datafeed.dukascopy.com/datafeed'` and
`file_name = 'BID_candles_min_1.bi5'`.  Strings are embedded as `List Char`. -/
def read_day_url (symbol : List Char) (day : Date) : List Char :=
  "https://datafeed.dukascopy.com/datafeed".data ++ "/".data ++ symbol
    ++ "/".data ++ padZero 4 day.year
    ++ "/".data ++ padZero 2 (day.month - 1)
    ++ "/".data ++ padZero 2 day.day
    ++ "/".data ++ "BID_candles_min_1.bi5".data

/-- Splits a character list at `'/'` separators (the `'/'`-separated
segments of a path). -/
def splitSlash : List Char → List (List Char)
  | [] => [[]]
  | c :: rest =>
    if c = '/' then [] :: splitSlash rest
    else
      match splitSlash rest with
      | [] => [[c]]
      | s :: ss => (c :: s) :: ss

/-- The network-and-decompress part of `read_day` (lines 28, 34–47): the GET's
response is passed in as `res` (so `rawdata = res.content`), the LZMA
decompressor as `decomp` (`none` standing for a raised `LZMAError`).  On
404 the function prints and returns `-1`
(`notFound`).  Otherwise, if the body is non-empty it is decompressed; on
success the buffer is returned.  If the body is empty, or the decompressor
raises `LZMAError`, control reaches `return decompresseddata` with the
local `decompresseddata` never assigned, raising `UnboundLocalError`. -/
def read_day (decomp : List Nat → Option (List Nat)) (res : HttpResponse) :
    ReadDayResult :=
  if res.status_code = 404 then .notFound
  else
    if res.content.length ≠ 0 then
      match decomp res.content with
      | some decompresseddata => .payload decompresseddata
      | none => .pyError .unboundLocalError
    else .pyError .unboundLocalError

/-- `bi5_to_df` (lines 50–75): `chunk_size = struct.calcsize(fmt)`;
`chunk_count = len(raw_data) // chunk_size`; for `step` in
`range(0, chunk_count)` unpack `raw_data[chunk_size*step :
chunk_size*step + chunk_size]`, collecting the decoded records in order. -/
def bi5_to_df (raw_data : List Nat) (fmt : Fmt) : List Record :=
  (List.range (raw_data.length / fmt.size)).map fun step =>
    fmt.unpack ((raw_data.drop (fmt.size * step)).take fmt.size)

/-- `normalize_df` (lines 77–98): the day is a midnight `datetime`, embedded
as its epoch second count `day`.  Column 0 becomes
`day + timedelta(seconds=x)`; columns 1–4 (the prices) are divided by
1000; column 5 (volume) is untouched. -/
def normalize_df (df : List Record) (day : Nat) : List Row :=
  df.map fun r =>
    { time := (day : Int) + r.time_offset
      open_ := (r.open_ : ℚ) / 1000
      high := (r.high : ℚ) / 1000
      low := (r.low : ℚ) / 1000
      close := (r.close : ℚ) / 1000
      volume := r.volume }

/-- `True` iff `isLeap y` in the proleptic Gregorian calendar used by
Python `datetime`. -/
def isLeap (y : Nat) : Bool :=
  (y % 4 = 0 && y % 100 ≠ 0) || y % 400 = 0

/-- Length of month `m` of year `y` (Python `calendar.monthrange` /
`datetime`'s day validation). -/
def daysInMonth (y m : Nat) : Nat :=
  if m = 2 then (if isLeap y then 29 else 28)
  else if m = 4 ∨ m = 6 ∨ m = 9 ∨ m = 11 then 30
  else 31

/-- Days in year `y` strictly before month `m`. -/
def daysBeforeMonth (y : Nat) : Nat → Nat
  | 0 => 0
  | 1 => 0
  | m + 1 => daysBeforeMonth y m + daysInMonth y m

/-- Day ordinal of the date `y-m-d` in the proleptic Gregorian calendar,
with `0001-01-01 ↦ 0` (Python's `datetime.toordinal` minus 1).  One day of
`timedelta` is 86400 seconds; day arithmetic in the loops below is done on
these ordinals. -/
def rataDie (y m d : Nat) : Nat :=
  365 * (y - 1) + (y - 1) / 4 - (y - 1) / 100 + (y - 1) / 400
    + daysBeforeMonth y m + (d - 1)

/-- Epoch seconds of midnight of the date `y-m-d` (the embedding of the
midnight `datetime` produced by `strptime(s, '%Y-%m-%d')`). -/
def epochOfDate (y m d : Nat) : Nat := 86400 * rataDie y m d

/-- Epoch seconds of the instant `y-mo-d h:mi:s`. -/
def epochOfDateTime (y mo d h mi s : Nat) : Nat :=
  epochOfDate y mo d + 3600 * h + 60 * mi + s

/-- Numeric value of a decimal digit character. -/
def digitVal (c : Char) : Nat := c.toNat - 48

/-- The `%Y` directive of CPython `strptime`: exactly four decimal digits
(regex `\d\d\d\d`). -/
def parseYearTok : List Char → Option (Nat × List Char)
  | a :: b :: c :: d :: rest =>
    if a.isDigit && b.isDigit && c.isDigit && d.isDigit then
      some (1000 * digitVal a + 100 * digitVal b + 10 * digitVal c + digitVal d, rest)
    else none
  | _ => none

/-- The `%m` directive of CPython `strptime`: regex `1[0-2]|0[1-9]|[1-9]` —
a one- or two-digit month, two-digit forms `01`–`09` and `10`–`12`,
one-digit forms `1`–`9`; zero padding is not required. -/
def parseMonthTok : List Char → Option (Nat × List Char)
  | [] => none
  | [c1] => if c1.isDigit && 1 ≤ digitVal c1 then some (digitVal c1, []) else none
  | c1 :: c2 :: rest =>
    if c1.isDigit && c2.isDigit then
      if (c1 = '1' && digitVal c2 ≤ 2) || (c1 = '0' && 1 ≤ digitVal c2) then
        some (10 * digitVal c1 + digitVal c2, rest)
      else if 1 ≤ digitVal c1 then some (digitVal c1, c2 :: rest)
      else none
    else if c1.isDigit && 1 ≤ digitVal c1 then some (digitVal c1, c2 :: rest)
    else none

/-- The `%d` directive of CPython `strptime`: regex
`3[01]|[12]\d|0[1-9]|[1-9]` — a one- or two-digit day `1`–`31`,
zero padding not required. -/
def parseDayTok : List Char → Option (Nat × List Char)
  | [] => none
  | [c1] => if c1.isDigit && 1 ≤ digitVal c1 then some (digitVal c1, []) else none
  | c1 :: c2 :: rest =>
    if c1.isDigit && c2.isDigit then
      if (c1 = '3' && digitVal c2 ≤ 1) || c1 = '1' || c1 = '2'
          || (c1 = '0' && 1 ≤ digitVal c2) then
        some (10 * digitVal c1 + digitVal c2, rest)
      else if 1 ≤ digitVal c1 then some (digitVal c1, c2 :: rest)
      else none
    else if c1.isDigit && 1 ≤ digitVal c1 then some (digitVal c1, c2 :: rest)
    else none

/-- The regex match of CPython `strptime(s, '%Y-%m-%d')`: year token,
literal `'-'`, month token, literal `'-'`, day token, and the whole string
must be consumed (CPython raises on unconverted trailing data). -/
def matchYmd (cs : List Char) : Option (Nat × Nat × Nat) :=
  match parseYearTok cs with
  | none => none
  | some (y, r1) =>
    match r1 with
    | '-' :: r2 =>
      match parseMonthTok r2 with
      | none => none
      | some (m, r3) =>
        match r3 with
        | '-' :: r4 =>
          match parseDayTok r4 with
          | some (d, []) => some (y, m, d)
          | _ => none
        | _ => none
    | _ => none

/-- `datetime.strptime(s, '%Y-%m-%d')` as used on lines 124–125: `none` is a
raised `ValueError` (either from the regex mismatch or from `datetime`'s
range validation: year ≥ 1 and day within the month's length). -/
def strptime_Y_m_d (s : String) : Option Date :=
  match matchYmd s.data with
  | some (y, m, d) =>
    if 1 ≤ y ∧ d ≤ daysInMonth y m then some ⟨y, m, d⟩ else none
  | none => none

/-- Modelled from the spec's words only (for comparison with the source's
parser): a string of the strict `YYYY-MM-DD` shape — exactly ten
characters, decimal digits in the year/month/day positions and `'-'`
separators at positions 4 and 7. -/
def specStrictYMD (s : String) : Bool :=
  match s.data with
  | [y1, y2, y3, y4, h1, m1, m2, h2, d1, d2] =>
    y1.isDigit && y2.isDigit && y3.isDigit && y4.isDigit
      && h1 = '-' && m1.isDigit && m2.isDigit
      && h2 = '-' && d1.isDigit && d2.isDigit
  | _ => false

/-- The body of `download_period`'s day loop (lines 129–135), one call per
`d` in `range(0, period)`: `current_day = start_day + timedelta(days=d)`
has ordinal `startOrd + d`; `read_day` is run on that day's response; a
`-1` result is skipped; otherwise the day's buffer is parsed, normalized
with the day's midnight epoch seconds, and appended to the accumulator
`dataset`.  An exception escaping `read_day` aborts the whole call. -/
def dpLoop (http : Nat → HttpResponse) (decomp : List Nat → Option (List Nat))
    (fmt : Fmt) (startOrd : Nat) :
    Nat → Nat → List Row → Except PyErr (List Row)
  | _, 0, dataset => .ok dataset
  | d, rem + 1, dataset =>
    match read_day decomp (http (startOrd + d)) with
    | .pyError e => .error e
    | .notFound => dpLoop http decomp fmt startOrd (d + 1) rem dataset
    | .payload raw =>
      dpLoop http decomp fmt startOrd (d + 1) rem
        (dataset ++ normalize_df (bi5_to_df raw fmt) (86400 * (startOrd + d)))

/-- `download_period` (lines 100–138): parse `start_day` and `end_day` with
`strptime('%Y-%m-%d')` (a failure raises `ValueError` before any fetch);
`period = (end_day - start_day).days`; iterate the day loop over
`range(0, period)` starting from the empty accumulator.  The network is
the oracle `http`, indexed by day ordinal. -/
def download_period (http : Nat → HttpResponse)
    (decomp : List Nat → Option (List Nat))
    (start_day end_day : String) (fmt : Fmt) : Except PyErr (List Row) :=
  match strptime_Y_m_d start_day with
  | none => .error .valueError
  | some sd =>
    match strptime_Y_m_d end_day with
    | none => .error .valueError
    | some ed =>
      let s := rataDie sd.year sd.month sd.day
      let e := rataDie ed.year ed.month ed.day
      let period : Int := (e : Int) - (s : Int)
      dpLoop http decomp fmt s 0 period.toNat []

/-- The rows a single day contributes inside `download_period`'s loop:
nothing on `-1` (404) — and nothing on an exception, though in that case
the loop aborts instead of using this value. -/
def dayRows (http : Nat → HttpResponse) (decomp : List Nat → Option (List Nat))
    (fmt : Fmt) (ord : Nat) : List Row :=
  match read_day decomp (http ord) with
  | .payload raw => normalize_df (bi5_to_df raw fmt) (86400 * ord)
  | _ => []

/-- `True` iff a `read_day` call raised an exception. -/
def isPyError : ReadDayResult → Bool
  | .pyError _ => true
  | _ => false

/-- `True` on `Except.ok`. -/
def isOkE (x : Except PyErr (List Row)) : Bool :=
  match x with
  | .ok _ => true
  | .error _ => false

/-- The row list of an `Except.ok`, `[]` on error. -/
def okRows (x : Except PyErr (List Row)) : List Row :=
  match x with
  | .ok rows => rows
  | .error _ => []

/-- The body of `download_data`'s symbol loop (lines 172–177), one call per
pair drawn from `zip(symbols, symbols_names)`: run `download_period` for
the symbol, tag every resulting row with the display name `n` (the
`'Ticker Full Name'` column), and append the tagged block to `data`. -/
def ddLoop (http : String → Nat → HttpResponse)
    (decomp : List Nat → Option (List Nat))
    (start_day end_day : String) (fmt : Fmt) :
    List (String × String) → List (Row × String) →
    Except PyErr (List (Row × String))
  | [], data => .ok data
  | (s, n) :: rest, data =>
    match download_period (http s) decomp start_day end_day fmt with
    | .error e => .error e
    | .ok tmp =>
      ddLoop http decomp start_day end_day fmt rest
        (data ++ tmp.map fun r => (r, n))

/-- `download_data` (lines 140–178): iterate the symbol loop over
`zip(symbols, symbols_names)` starting from the empty table.  The network
oracle `http` is indexed by symbol and day ordinal. -/
def download_data (http : String → Nat → HttpResponse)
    (decomp : List Nat → Option (List Nat))
    (symbols symbols_names : List String)
    (start_day end_day : String) (fmt : Fmt) :
    Except PyErr (List (Row × String)) :=
  ddLoop http decomp start_day end_day fmt (symbols.zip symbols_names) []

/-! ### Helper lemmas: digit strings and path segments -/

/-- `digitCh` never produces the path separator. -/
lemma digitChar_ne_slash (k : Nat) : digitCh k ≠ '/' := by
  match k with
  | 0 => decide
  | 1 => decide
  | 2 => decide
  | 3 => decide
  | 4 => decide
  | 5 => decide
  | 6 => decide
  | 7 => decide
  | 8 => decide
  | k + 9 => exact (by decide : ('9' : Char) ≠ '/')

/-- No digit expansion contains the path separator. -/
lemma slash_not_mem_decDigitsAux (fuel n : Nat) : '/' ∉ decDigitsAux fuel n := by
  induction fuel generalizing n with
  | zero => simp [decDigitsAux]
  | succ fuel ih =>
    simp only [decDigitsAux]
    split
    · simp only [List.mem_singleton]
      exact fun h => digitChar_ne_slash _ h.symm
    · simp only [List.mem_append, List.mem_singleton]
      rintro (h | h)
      · exact ih _ h
      · exact digitChar_ne_slash _ h.symm

/-- Zero-padded decimal numbers contain no path separator. -/
lemma slash_not_mem_padZero (w n : Nat) : '/' ∉ padZero w n := by
  simp only [padZero, List.mem_append, List.mem_replicate]
  rintro (⟨-, h⟩ | h)
  · exact absurd h (by decide)
  · exact slash_not_mem_decDigitsAux _ _ h

/-- Splitting at a separator that follows a separator-free prefix peels off
that prefix as one segment. -/
lemma splitSlash_append (a b : List Char) (ha : '/' ∉ a) :
    splitSlash (a ++ '/' :: b) = a :: splitSlash b := by
  induction a with
  | nil => rfl
  | cons c a ih =>
    have hc : ¬c = '/' := fun h => ha (h ▸ List.mem_cons_self c a)
    have ha' : '/' ∉ a := fun h => ha (List.mem_cons_of_mem _ h)
    simp only [List.cons_append, splitSlash, if_neg hc, List.append_eq]
    rw [ih ha']

/-- C1.  For every symbol (that does not itself contain a `/`) and every
calendar day, the resource path built by `read_day` has as its month
segment (the 7th `/`-separated component) the day's calendar month minus
one, zero-padded to two digits. -/
theorem read_day_url_month_zero_indexed (symbol : List Char) (day : Date)
    (hs : '/' ∉ symbol) (hm : 1 ≤ day.month) :
    (splitSlash (read_day_url symbol day))[6]? = some (padZero 2 (day.month - 1)) := by
  have hurl : read_day_url symbol day
      = "https:".data ++ '/' :: ([] ++ '/' :: ("datafeed.dukascopy.com".data ++ '/' ::
          ("datafeed".data ++ '/' :: (symbol ++ '/' :: (padZero 4 day.year ++ '/' ::
            (padZero 2 (day.month - 1) ++ '/' :: (padZero 2 day.day ++ '/' ::
              "BID_candles_min_1.bi5".data))))))) := by
    simp only [read_day_url, List.append_assoc]
    rfl
  rw [hurl, splitSlash_append "https:".data _ (by decide),
    splitSlash_append [] _ (by decide),
    splitSlash_append "datafeed.dukascopy.com".data _ (by decide),
    splitSlash_append "datafeed".data _ (by decide),
    splitSlash_append symbol _ hs,
    splitSlash_append (padZero 4 day.year) _ (slash_not_mem_padZero _ _),
    splitSlash_append (padZero 2 (day.month - 1)) _ (slash_not_mem_padZero _ _)]
  simp

/-- C1 witness: for symbol `"EURUSD"` and day 2024-03-15 the month segment
is `"02"` — and `"02"` is not `"03"`. -/
theorem read_day_url_month_zero_indexed_witness :
    (splitSlash (read_day_url "EURUSD".data ⟨2024, 3, 15⟩))[6]? = some "02".data
    ∧ "02".data ≠ "03".data := by
  constructor
  · rw [read_day_url_month_zero_indexed "EURUSD".data ⟨2024, 3, 15⟩ (by decide) (by decide)]
    decide
  · decide

/-- C2.  `bi5_to_df` yields exactly `⌊len/size⌋` records; record `step` is
the decode of the slice `raw_data[size*step : size*step + size]`; and the
trailing bytes beyond the last full chunk are discarded (parsing the
truncated buffer gives the same records). -/
theorem bi5_to_df_chunking (raw_data : List Nat) (fmt : Fmt) (h : 0 < fmt.size) :
    (bi5_to_df raw_data fmt).length = raw_data.length / fmt.size
    ∧ (∀ step, (bi5_to_df raw_data fmt)[step]? =
        if step < raw_data.length / fmt.size
        then some (fmt.unpack ((raw_data.drop (fmt.size * step)).take fmt.size))
        else none)
    ∧ bi5_to_df raw_data fmt
        = bi5_to_df (raw_data.take (fmt.size * (raw_data.length / fmt.size))) fmt := by
  have hcle : fmt.size * (raw_data.length / fmt.size) ≤ raw_data.length := by
    rw [Nat.mul_comm]; exact Nat.div_mul_le_self _ _
  refine ⟨by simp [bi5_to_df], fun step => ?_, ?_⟩
  · simp only [bi5_to_df, List.getElem?_map]
    by_cases hstep : step < raw_data.length / fmt.size
    · rw [List.getElem?_range hstep, if_pos hstep, Option.map_some']
    · rw [List.getElem?_eq_none (by simpa using Nat.le_of_not_lt hstep), if_neg hstep,
        Option.map_none']
  · have hlen : (raw_data.take (fmt.size * (raw_data.length / fmt.size))).length
        = fmt.size * (raw_data.length / fmt.size) := by
      rw [List.length_take]; omega
    have hcount : (raw_data.take (fmt.size * (raw_data.length / fmt.size))).length / fmt.size
        = raw_data.length / fmt.size := by
      rw [hlen, Nat.mul_div_cancel_left _ h]
    simp only [bi5_to_df, hcount]
    refine List.map_congr_left fun step hstep => ?_
    rw [List.mem_range] at hstep
    have hbound : fmt.size * step + fmt.size ≤ fmt.size * (raw_data.length / fmt.size) := by
      have := Nat.mul_le_mul_left fmt.size (Nat.succ_le_of_lt hstep)
      rwa [Nat.mul_succ] at this
    rw [List.drop_take, List.take_take, inf_eq_left.mpr (by omega)]

/-- C2 witness: with a 20-byte chunk format a 45-byte buffer yields exactly
`⌊45/20⌋ = 2` records. -/
theorem bi5_to_df_chunking_witness :
    0 < (20 : Nat)
    ∧ (bi5_to_df (List.range 45) ⟨20, fun l => ⟨(l.headD 0 : Int), 0, 0, 0, 0, 0⟩⟩).length
        = 45 / 20
    ∧ 45 / 20 = 2 :=
  ⟨by decide,
   (bi5_to_df_chunking (List.range 45) ⟨20, fun l => ⟨(l.headD 0 : Int), 0, 0, 0, 0, 0⟩⟩
     (by decide)).1,
   by decide⟩

/-- C4.  `normalize_df` divides exactly the four price columns by 1000 and
passes volume through unchanged; a record with `open = 123456` normalizes
to `open = 123.456`. -/
theorem normalize_df_price_scaling (df : List Record) (day : Nat) :
    (normalize_df df day).map Row.open_ = df.map (fun r => (r.open_ : ℚ) / 1000)
    ∧ (normalize_df df day).map Row.high = df.map (fun r => (r.high : ℚ) / 1000)
    ∧ (normalize_df df day).map Row.low = df.map (fun r => (r.low : ℚ) / 1000)
    ∧ (normalize_df df day).map Row.close = df.map (fun r => (r.close : ℚ) / 1000)
    ∧ (normalize_df df day).map Row.volume = df.map Record.volume
    ∧ (normalize_df [(⟨0, 123456, 0, 0, 0, 0⟩ : Record)] 0).map Row.open_
        = [(123.456 : ℚ)] := by
  refine ⟨?_, ?_, ?_, ?_, ?_, ?_⟩
  · simp [normalize_df]
  · simp [normalize_df]
  · simp [normalize_df]
  · simp [normalize_df]
  · simp [normalize_df]
  · simp [normalize_df]
    norm_num

/-- C5.  `normalize_df` sends each record's time to
`day + timedelta(seconds = time_offset)`; offset 3661 on 2024-01-01 gives
the timestamp 2024-01-01 01:01:01. -/
theorem normalize_df_time_offset (df : List Record) (day : Nat) :
    (normalize_df df day).map Row.time = df.map (fun r => (day : Int) + r.time_offset)
    ∧ (normalize_df [(⟨3661, 0, 0, 0, 0, 0⟩ : Record)] (epochOfDate 2024 1 1)).map Row.time
      = [(epochOfDateTime 2024 1 1 1 1 1 : Int)] := by
  refine ⟨by simp [normalize_df], ?_⟩
  simp only [normalize_df, List.map_cons, List.map_nil]
  decide

/-- C8 (the code bug).  When the response is not a 404 but its body is empty,
and likewise when decompression raises `LZMAError`, `read_day` does not
return a defined buffer: it reaches `return decompresseddata` with the
local unassigned and raises `UnboundLocalError`. -/
theorem read_day_unbound_local_on_empty :
    read_day (fun b => some b) ⟨200, []⟩ = ReadDayResult.pyError PyErr.unboundLocalError
    ∧ read_day (fun _ => none) ⟨200, [0]⟩ = ReadDayResult.pyError PyErr.unboundLocalError :=
  ⟨rfl, rfl⟩

/-! ### The day loop of `download_period` -/

/-- The only exception `read_day` itself can raise is `UnboundLocalError`. -/
lemma read_day_error_unbound (decomp : List Nat → Option (List Nat))
    (res : HttpResponse) (e : PyErr)
    (h : read_day decomp res = .pyError e) : e = .unboundLocalError := by
  unfold read_day at h
  split at h
  · cases h
  · split at h
    · cases hd : decomp res.content <;> rw [hd] at h
      · cases h; rfl
      · cases h
    · cases h; rfl

/-- An error-free run of the day loop appends, in day order, exactly the
per-day row blocks to the accumulator. -/
lemma dpLoop_eq_flatten (http : Nat → HttpResponse)
    (decomp : List Nat → Option (List Nat)) (fmt : Fmt) (startOrd : Nat) :
    ∀ (rem d : Nat) (dataset : List Row),
      (∀ k, k < rem → isPyError (read_day decomp (http (startOrd + d + k))) = false) →
      dpLoop http decomp fmt startOrd d rem dataset
        = .ok (dataset ++ ((List.range rem).map fun k =>
            dayRows http decomp fmt (startOrd + d + k)).flatten) := by
  intro rem
  induction rem with
  | zero => intro d dataset _; simp [dpLoop]
  | succ rem ih =>
    intro d dataset h
    have h0 := h 0 (Nat.succ_pos _)
    rw [Nat.add_zero] at h0
    have hshift : ∀ k, k < rem →
        isPyError (read_day decomp (http (startOrd + (d + 1) + k))) = false := by
      intro k hk
      rw [show startOrd + (d + 1) + k = startOrd + d + (k + 1) from by omega]
      exact h (k + 1) (by omega)
    have hfun : List.map ((fun k => dayRows http decomp fmt (startOrd + d + k)) ∘ Nat.succ)
          (List.range rem)
        = List.map (fun k => dayRows http decomp fmt (startOrd + (d + 1) + k))
            (List.range rem) := by
      refine List.map_congr_left fun k _ => ?_
      simp only [Function.comp_apply]
      congr 1
      omega
    have hsplit : ((List.range (rem + 1)).map fun k =>
          dayRows http decomp fmt (startOrd + d + k)).flatten
        = dayRows http decomp fmt (startOrd + d)
            ++ ((List.range rem).map fun k =>
                  dayRows http decomp fmt (startOrd + (d + 1) + k)).flatten := by
      rw [List.range_succ_eq_map, List.map_cons, List.flatten_cons, List.map_map, hfun]
      norm_num
    cases hr : read_day decomp (http (startOrd + d)) with
    | pyError e => rw [hr] at h0; simp [isPyError] at h0
    | notFound =>
      have hday : dayRows http decomp fmt (startOrd + d) = [] := by
        simp [dayRows, hr]
      simp only [dpLoop, hr]
      rw [ih (d + 1) dataset hshift, hsplit, hday, List.nil_append]
    | payload raw =>
      have hday : dayRows http decomp fmt (startOrd + d)
          = normalize_df (bi5_to_df raw fmt) (86400 * (startOrd + d)) := by
        simp [dayRows, hr]
      simp only [dpLoop, hr]
      rw [ih (d + 1) _ hshift, hsplit, hday, List.append_assoc]

/-- The day loop can abort only with the exception raised inside `read_day`,
never with the date-parsing `ValueError`. -/
lemma dpLoop_ne_valueError (http : Nat → HttpResponse)
    (decomp : List Nat → Option (List Nat)) (fmt : Fmt) (startOrd : Nat) :
    ∀ (rem d : Nat) (dataset : List Row),
      dpLoop http decomp fmt startOrd d rem dataset ≠ .error .valueError := by
  intro rem
  induction rem with
  | zero => intro d dataset; simp [dpLoop]
  | succ rem ih =>
    intro d dataset
    cases hr : read_day decomp (http (startOrd + d)) with
    | pyError e =>
      simp only [dpLoop, hr]
      intro heq
      have he : e = .valueError := by cases heq; rfl
      have := read_day_error_unbound _ _ _ hr
      rw [he] at this
      cases this
    | notFound => simp only [dpLoop, hr]; exact ih (d + 1) dataset
    | payload raw => simp only [dpLoop, hr]; exact ih (d + 1) _

/-- An error-free `download_period` run returns exactly the concatenation of
the per-day row blocks for the ordinals `s, s+1, …, s+n-1` (the half-open
range `[start_day, end_day)`), in ascending day order. -/
lemma download_period_eq_flatten (http : Nat → HttpResponse)
    (decomp : List Nat → Option (List Nat)) (fmt : Fmt) (sds eds : String)
    (sd ed : Date) (s n : Nat)
    (h1 : strptime_Y_m_d sds = some sd) (h2 : strptime_Y_m_d eds = some ed)
    (hs : s = rataDie sd.year sd.month sd.day)
    (hn : n = rataDie ed.year ed.month ed.day - rataDie sd.year sd.month sd.day)
    (hne : ∀ k, k < n → isPyError (read_day decomp (http (s + k))) = false) :
    download_period http decomp sds eds fmt
      = .ok (((List.range n).map fun k => dayRows http decomp fmt (s + k)).flatten) := by
  subst hs hn
  unfold download_period
  rw [h1, h2]
  have htn : ((rataDie ed.year ed.month ed.day : Int)
      - (rataDie sd.year sd.month sd.day : Int)).toNat
      = rataDie ed.year ed.month ed.day - rataDie sd.year sd.month sd.day := by omega
  simp only [htn]
  have := dpLoop_eq_flatten http decomp fmt (rataDie sd.year sd.month sd.day)
    (rataDie ed.year ed.month ed.day - rataDie sd.year sd.month sd.day) 0 []
    (by simpa using hne)
  simpa using this

/-! ### Concrete fixtures used by the witnesses -/

/-- A decompressor that succeeds and returns the buffer unchanged. -/
def decompW : List Nat → Option (List Nat) := fun raw => some raw

/-- A one-byte-per-record format: the single byte is the time offset. -/
def fmtW : Fmt := ⟨1, fun l => ⟨(l.headD 0 : Int), 0, 0, 0, 0, 0⟩⟩

/-- A network in which day ordinal 738885 (2024-01-01) is missing (404) and
every other day returns a one-byte body. -/
def httpW3 : Nat → HttpResponse :=
  fun k => if k = 738885 then ⟨404, []⟩ else ⟨200, [7]⟩

/-- A network in which every day returns the two-byte body `[5, 9]`. -/
def httpW6 : Nat → HttpResponse := fun _ => ⟨200, [5, 9]⟩

/-- A per-symbol network in which every day returns a one-byte body. -/
def httpW7 : String → Nat → HttpResponse := fun _ _ => ⟨200, [7]⟩

/-- C3.  In an exception-free run, a day whose fetch reports 404 contributes
zero rows, and `download_period` still returns the other days' rows in
order: the result is the in-order concatenation of per-day blocks, and
every not-found day's block is empty. -/
theorem download_period_notfound_skips (http : Nat → HttpResponse)
    (decomp : List Nat → Option (List Nat)) (fmt : Fmt) (sds eds : String)
    (sd ed : Date) (s n : Nat)
    (h1 : strptime_Y_m_d sds = some sd) (h2 : strptime_Y_m_d eds = some ed)
    (hs : s = rataDie sd.year sd.month sd.day)
    (hn : n = rataDie ed.year ed.month ed.day - rataDie sd.year sd.month sd.day)
    (hne : ∀ k, k < n → isPyError (read_day decomp (http (s + k))) = false) :
    download_period http decomp sds eds fmt
      = .ok (((List.range n).map fun k => dayRows http decomp fmt (s + k)).flatten)
    ∧ ∀ k, k < n → read_day decomp (http (s + k)) = ReadDayResult.notFound →
        dayRows http decomp fmt (s + k) = [] :=
  ⟨download_period_eq_flatten http decomp fmt sds eds sd ed s n h1 h2 hs hn hne,
   fun _ _ hnf => by simp [dayRows, hnf]⟩

/-- C3 witness: over 2024-01-01 .. 2024-01-03 with the first day missing,
the period result is the flattened per-day blocks and the first day is
indeed reported not-found (so its block is empty). -/
theorem download_period_notfound_skips_witness :
    download_period httpW3 decompW "2024-01-01" "2024-01-03" fmtW
      = .ok (((List.range 2).map fun k => dayRows httpW3 decompW fmtW (738885 + k)).flatten)
    ∧ read_day decompW (httpW3 738885) = ReadDayResult.notFound :=
  ⟨(download_period_notfound_skips httpW3 decompW fmtW "2024-01-01" "2024-01-03"
      ⟨2024, 1, 1⟩ ⟨2024, 1, 3⟩ 738885 2 (by decide) (by decide) (by decide) (by decide)
      (by decide)).1,
   by decide⟩

/-- C6.  For `start ≤ end`, an exception-free `download_period` run processes
exactly the days of the half-open range `[start, end)` in ascending order
(the result is the in-order concatenation of the `n = end - start` per-day
blocks), and — provided each day's rows are time-sorted and lie within
that day — the whole result is chronologically ascending. -/
theorem download_period_day_order (http : Nat → HttpResponse)
    (decomp : List Nat → Option (List Nat)) (fmt : Fmt) (sds eds : String)
    (sd ed : Date) (s n : Nat)
    (h1 : strptime_Y_m_d sds = some sd) (h2 : strptime_Y_m_d eds = some ed)
    (hs : s = rataDie sd.year sd.month sd.day)
    (hn : n = rataDie ed.year ed.month ed.day - rataDie sd.year sd.month sd.day)
    (hle : rataDie sd.year sd.month sd.day ≤ rataDie ed.year ed.month ed.day)
    (hne : ∀ k, k < n → isPyError (read_day decomp (http (s + k))) = false)
    (hsorted : ∀ k, k < n →
        ((dayRows http decomp fmt (s + k)).map Row.time).Pairwise (· ≤ ·))
    (hbound : ∀ k, k < n → ∀ r ∈ dayRows http decomp fmt (s + k),
        (86400 * (s + k) : Int) ≤ r.time ∧ r.time < 86400 * (s + k + 1)) :
    download_period http decomp sds eds fmt
      = .ok (((List.range n).map fun k => dayRows http decomp fmt (s + k)).flatten)
    ∧ ((((List.range n).map fun k =>
          dayRows http decomp fmt (s + k)).flatten).map Row.time).Pairwise (· ≤ ·) := by
  refine ⟨download_period_eq_flatten http decomp fmt sds eds sd ed s n h1 h2 hs hn hne, ?_⟩
  rw [List.map_flatten, List.pairwise_flatten]
  constructor
  · intro l hl
    rw [List.map_map] at hl
    obtain ⟨k, hk, rfl⟩ := List.mem_map.mp hl
    rw [List.mem_range] at hk
    simpa using hsorted k hk
  · rw [List.map_map, List.pairwise_map]
    refine (List.pairwise_lt_range n).imp_of_mem ?_
    intro a b ha hb hab x hx y hy
    rw [List.mem_range] at ha hb
    simp only [Function.comp_apply] at hx hy
    obtain ⟨r, hr, rfl⟩ := List.mem_map.mp hx
    obtain ⟨r', hr', rfl⟩ := List.mem_map.mp hy
    have hxb := hbound a ha r hr
    have hyb := hbound b hb r' hr'
    omega

/-- C6 witness: two days, each with rows at offsets 5 and 9 seconds; the
result is the in-order concatenation and its times are ascending. -/
theorem download_period_day_order_witness :
    download_period httpW6 decompW "2024-01-01" "2024-01-03" fmtW
      = .ok (((List.range 2).map fun k => dayRows httpW6 decompW fmtW (738885 + k)).flatten)
    ∧ ((((List.range 2).map fun k =>
          dayRows httpW6 decompW fmtW (738885 + k)).flatten).map Row.time).Pairwise (· ≤ ·) :=
  download_period_day_order httpW6 decompW fmtW "2024-01-01" "2024-01-03"
    ⟨2024, 1, 1⟩ ⟨2024, 1, 3⟩ 738885 2 (by decide) (by decide) (by decide) (by decide)
    (by decide) (by decide) (by decide) (by decide)

/-- C9 (amended).  `download_period` parses both date strings (with CPython's
`'%Y-%m-%d'` acceptance) before its loop: if either string is rejected,
the call returns the parse `ValueError`, independently of the network —
so no fetch result can influence it and no partial table escapes; if both
strings are accepted, the call never returns the parse error. -/
theorem download_period_parse_gate (http http' : Nat → HttpResponse)
    (decomp : List Nat → Option (List Nat)) (fmt : Fmt) (sds eds : String) :
    ((strptime_Y_m_d sds = none ∨ strptime_Y_m_d eds = none) →
      download_period http decomp sds eds fmt = .error .valueError
      ∧ download_period http decomp sds eds fmt
          = download_period http' decomp sds eds fmt)
    ∧ ((strptime_Y_m_d sds).isSome → (strptime_Y_m_d eds).isSome →
        download_period http decomp sds eds fmt ≠ .error .valueError) := by
  constructor
  · intro hbad
    have hall : ∀ g : Nat → HttpResponse,
        download_period g decomp sds eds fmt = .error .valueError := by
      intro g
      unfold download_period
      rcases hbad with hbad | hbad
      · rw [hbad]
      · rw [hbad]
        cases hsd : strptime_Y_m_d sds <;> rfl
    exact ⟨hall http, (hall http).trans (hall http').symm⟩
  · intro hsome1 hsome2
    obtain ⟨sd, hsd⟩ := Option.isSome_iff_exists.mp hsome1
    obtain ⟨ed, hed⟩ := Option.isSome_iff_exists.mp hsome2
    unfold download_period
    rw [hsd, hed]
    exact dpLoop_ne_valueError http decomp fmt _ _ _ _

/-- C9 witness: `"2024-13-01"` is rejected (month 13) and aborts with the
parse error; `"2024-01-02"`/`"2024-01-05"` are accepted and the call does
not produce the parse error. -/
theorem download_period_parse_gate_witness :
    download_period httpW3 decompW "2024-13-01" "2024-01-05" fmtW
      = Except.error PyErr.valueError
    ∧ download_period httpW3 decompW "2024-01-02" "2024-01-05" fmtW
      ≠ Except.error PyErr.valueError :=
  ⟨((download_period_parse_gate httpW3 httpW6 decompW fmtW "2024-13-01" "2024-01-05").1
      (Or.inl (by decide))).1,
   (download_period_parse_gate httpW3 httpW6 decompW fmtW "2024-01-02" "2024-01-05").2
      (by decide) (by decide)⟩

/-- C9 counterexample to the claim as stated: `"2024-3-5"` is not of the
strict `YYYY-MM-DD` shape, yet the parser accepts it and `download_period`
runs the pipeline (returning an empty table here, not a parse error). -/
theorem strptime_lenient_counterexample :
    specStrictYMD "2024-3-5" = false
    ∧ (strptime_Y_m_d "2024-3-5").isSome = true
    ∧ download_period (fun _ => ⟨404, []⟩) decompW "2024-3-5" "2024-3-7" fmtW
        = Except.ok [] :=
  ⟨by decide, by decide, by rfl⟩

/-! ### The symbol loop of `download_data` -/

/-- An error-free run of the symbol loop appends, in pair order, the tagged
block of each symbol's period table to the accumulator. -/
lemma ddLoop_eq_flatten (http : String → Nat → HttpResponse)
    (decomp : List Nat → Option (List Nat)) (sds eds : String) (fmt : Fmt) :
    ∀ (ps : List (String × String)) (data : List (Row × String)),
      (∀ p ∈ ps, isOkE (download_period (http p.1) decomp sds eds fmt) = true) →
      ddLoop http decomp sds eds fmt ps data
        = .ok (data ++ (ps.map fun p =>
            (okRows (download_period (http p.1) decomp sds eds fmt)).map
              fun r => (r, p.2)).flatten) := by
  intro ps
  induction ps with
  | nil => intro data _; simp [ddLoop]
  | cons p ps ih =>
    intro data h
    obtain ⟨sym, nm⟩ := p
    have hp := h (sym, nm) (List.mem_cons_self _ _)
    cases hdp : download_period (http sym) decomp sds eds fmt with
    | error e => rw [hdp] at hp; simp [isOkE] at hp
    | ok tmp =>
      simp only [ddLoop, hdp]
      rw [ih _ (fun q hq => h q (List.mem_cons_of_mem _ hq))]
      simp only [List.map_cons, List.flatten_cons, okRows, hdp, List.append_assoc]

/-- C7.  With parallel symbol/name lists consumed by `zip` and every period
fetch succeeding, `download_data` returns exactly the concatenation, in
input order, of each symbol's period table with every row tagged by that
symbol's display name — so all rows of an earlier symbol precede all rows
of a later one, and inside a block the rows keep `download_period`'s
chronological order. -/
theorem download_data_symbol_blocks (http : String → Nat → HttpResponse)
    (decomp : List Nat → Option (List Nat))
    (symbols symbols_names : List String) (sds eds : String) (fmt : Fmt)
    (hlen : symbols.length = symbols_names.length)
    (hok : ∀ p ∈ symbols.zip symbols_names,
        isOkE (download_period (http p.1) decomp sds eds fmt) = true) :
    download_data http decomp symbols symbols_names sds eds fmt
      = .ok (((symbols.zip symbols_names).map fun p =>
          (okRows (download_period (http p.1) decomp sds eds fmt)).map
            fun r => (r, p.2)).flatten) := by
  unfold download_data
  rw [ddLoop_eq_flatten http decomp sds eds fmt _ _ hok]
  simp

/-- C7 witness: symbols `["A", "B"]` with names `["Alpha", "Beta"]` produce
the `"Alpha"`-tagged block followed by the `"Beta"`-tagged block. -/
theorem download_data_symbol_blocks_witness :
    download_data httpW7 decompW ["A", "B"] ["Alpha", "Beta"]
        "2024-01-01" "2024-01-02" fmtW
      = .ok (((["A", "B"].zip ["Alpha", "Beta"]).map fun p =>
          (okRows (download_period (httpW7 p.1) decompW "2024-01-01" "2024-01-02" fmtW)).map
            fun r => (r, p.2)).flatten) :=
  download_data_symbol_blocks httpW7 decompW ["A", "B"] ["Alpha", "Beta"]
    "2024-01-01" "2024-01-02" fmtW (by decide) (by decide)

/-- `zip` only consumes the common prefix of its two arguments. -/
lemma zip_eq_zip_take {α β : Type} (as : List α) (bs : List β) :
    as.zip bs
      = (as.take (min as.length bs.length)).zip (bs.take (min as.length bs.length)) := by
  induction as generalizing bs with
  | nil => simp
  | cons a as ih =>
    cases bs with
    | nil => simp
    | cons b bs =>
      simp only [List.length_cons, Nat.succ_min_succ, List.take_succ_cons,
        List.zip_cons_cons]
      exact congrArg (List.cons (a, b)) (ih bs)

/-- C10.  When `symbols` and `symbols_names` have different lengths,
`download_data` raises nothing on that account: `zip` silently pairs only
the common prefix, so the call behaves exactly as if both lists were
truncated to the shorter length, and the output has blocks only for the
paired prefix. -/
theorem download_data_zip_truncation (http : String → Nat → HttpResponse)
    (decomp : List Nat → Option (List Nat))
    (symbols symbols_names : List String) (sds eds : String) (fmt : Fmt)
    (h : symbols.length ≠ symbols_names.length) :
    download_data http decomp symbols symbols_names sds eds fmt
      = download_data http decomp
          (symbols.take (min symbols.length symbols_names.length))
          (symbols_names.take (min symbols.length symbols_names.length))
          sds eds fmt := by
  unfold download_data
  have htake : (symbols.take (min symbols.length symbols_names.length)).zip
        (symbols_names.take (min symbols.length symbols_names.length))
      = symbols.zip symbols_names := (zip_eq_zip_take symbols symbols_names).symm
  rw [htake]

/-- C10 witness: two symbols but a single display name — the second symbol
is silently dropped. -/
theorem download_data_zip_truncation_witness :
    download_data httpW7 decompW ["A", "B"] ["Alpha"] "2024-01-01" "2024-01-02" fmtW
      = download_data httpW7 decompW
          (["A", "B"].take (min (["A", "B"] : List String).length
            (["Alpha"] : List String).length))
          (["Alpha"].take (min (["A", "B"] : List String).length
            (["Alpha"] : List String).length))
          "2024-01-01" "2024-01-02" fmtW :=
  download_data_zip_truncation httpW7 decompW ["A", "B"] ["Alpha"]
    "2024-01-01" "2024-01-02" fmtW (by decide)
